import Mathlib

/-!
Shallow embedding of `src/main.cpp` (a C++20 pipeline demo: filter even
numbers, square them, sum them, print formatted results) and proofs of the
specification's claims about it.

Modelling conventions:
- A C++ `std::vector<int>` is a `List Int` whose elements are understood
  to lie in the signed 32-bit range.
- C++ `int` arithmetic is modelled with wraparound two's-complement
  semantics (`wrap32`), as the specification prescribes for overflow.
- C++ `%` truncates toward zero, which is `Int.tmod`.
- The `std::views::filter` / `std::views::transform` pipelines followed by
  vector materialisation are eager `List.filter` / `List.map`; the spec
  itself notes laziness carries no semantic contract.
-/

/-- Two's-complement wraparound to the signed 32-bit range: the value a C++
`int` holds when the mathematical result of an operation is `x`. -/
def wrap32 (x : Int) : Int := (x + 2 ^ 31) % 2 ^ 32 - 2 ^ 31

/-- The C++ predicate `n % 2 == 0` from the lambda at `src/main.cpp:30`.
C++ `%` is truncating remainder, i.e. `Int.tmod`. -/
def cppIsEven (n : Int) : Bool := Int.tmod n 2 == 0

/-- `get_even_numbers` (`src/main.cpp:27-34`): filters the vector through
`views::filter` with the evenness lambda and materialises the view. -/
def get_even_numbers (numbers : List Int) : List Int :=
  numbers.filter cppIsEven

/-- `square_numbers` (`src/main.cpp:37-44`): transforms each element `n` to
`n * n` (computed in `int` arithmetic, hence wrapped) and materialises. -/
def square_numbers (numbers : List Int) : List Int :=
  numbers.map (fun n => wrap32 (n * n))

/-- The accumulation loop of `sum` (`src/main.cpp:49-53`): `total` starts at
0 and each element is added with `int` addition. -/
def sumLoop (total : Int) : List Int → Int
  | [] => total
  | num :: rest => sumLoop (wrap32 (total + num)) rest

/-- The `sum` template of `src/main.cpp:47-54` instantiated at `T = int`. -/
def sum (numbers : List Int) : Int := sumLoop 0 numbers

/-- The loop body of `format_vector` (`src/main.cpp:11-17`): `result`
accumulates the output, `first` tracks whether a separator is needed. -/
def format_vector_loop (result : String) (first : Bool) : List String → String
  | [] => result
  | s :: rest =>
      format_vector_loop ((if first then result else result ++ ", ") ++ "\"" ++ s ++ "\"") false rest

/-- `format_vector` (`src/main.cpp:8-20`): opening brace, the loop over the
labels, closing brace. -/
def format_vector (vec : List String) : String :=
  format_vector_loop "\x7b" true vec ++ "\x7d"

/-- `std::to_string` on an `int`: canonical base-10 rendering. -/
def to_string (n : Int) : String := toString n

/-- Model of `main` (`src/main.cpp:56-85`): the four lines written to
standard output (each `std::cout << std::format(...)` call ends in a
newline, so each is one line) paired with the return value. -/
def main_run : List String × Int :=
  let numbers : List Int := [1, 2, 3, 4, 5, 6]
  let evens := get_even_numbers numbers
  let squared_evens := square_numbers evens
  let total := sum squared_evens
  let original_str := numbers.map to_string
  let evens_str := evens.map to_string
  let squared_evens_str := squared_evens.map to_string
  (["Original numbers: " ++ format_vector original_str,
    "Even numbers: " ++ format_vector evens_str,
    "Squared even numbers: " ++ format_vector squared_evens_str,
    "Sum of squared even numbers: " ++ to_string total], 0)

/-- Spec-side (claim C6): a label wrapped in double quotes. -/
def quoteLabel (s : String) : String := "\"" ++ s ++ "\""

/-- Spec-side (claim C6): strings joined by a separator, in input order. -/
def joinSep (sep : String) : List String → String
  | [] => ""
  | [s] => s
  | s :: rest => s ++ sep ++ joinSep sep rest

/-- Spec-side (claim C6): opening brace, each label double-quoted, labels
joined by comma-space in input order, closing brace. -/
def renderSpec (labels : List String) : String :=
  "\x7b" ++ joinSep ", " (labels.map quoteLabel) ++ "\x7d"

/-- Spec-side (claim C9): `x` reduced modulo `2 ^ 32` and reinterpreted as a
signed 32-bit value. -/
def toSigned32 (x : Int) : Int :=
  if x % 2 ^ 32 < 2 ^ 31 then x % 2 ^ 32 else x % 2 ^ 32 - 2 ^ 32

-- Helper lemmas ------------------------------------------------------------

lemma wrap32_add_left (a b : Int) : wrap32 (wrap32 a + b) = wrap32 (a + b) := by
  unfold wrap32; omega

lemma wrap32_add_wrap (a b : Int) : wrap32 (wrap32 a + wrap32 b) = wrap32 (a + b) := by
  unfold wrap32; omega

lemma wrap32_emod_two (x : Int) : wrap32 x % 2 = x % 2 := by
  unfold wrap32; omega

lemma wrap32_eq_toSigned32 (x : Int) : wrap32 x = toSigned32 x := by
  unfold wrap32 toSigned32
  split <;> omega

lemma cppIsEven_iff (n : Int) : cppIsEven n = true ↔ n % 2 = 0 := by
  unfold cppIsEven
  rw [beq_iff_eq, ← Int.dvd_iff_tmod_eq_zero, Int.dvd_iff_emod_eq_zero]

lemma cppIsEven_eq_emod (n : Int) : cppIsEven n = (n % 2 == 0) := by
  rw [Bool.eq_iff_iff, cppIsEven_iff, beq_iff_eq]

lemma cppIsEven_wrap_square (n : Int) : cppIsEven (wrap32 (n * n)) = cppIsEven n := by
  rw [Bool.eq_iff_iff, cppIsEven_iff, cppIsEven_iff, wrap32_emod_two,
    ← Int.even_iff, ← Int.even_iff, Int.even_mul, or_self]

lemma sumLoop_eq_foldl (l : List Int) (a : Int) :
    sumLoop a l = l.foldl (fun acc n => wrap32 (acc + n)) a := by
  induction l generalizing a with
  | nil => rfl
  | cons n t ih => simp only [sumLoop, List.foldl, ih]

lemma sumLoop_wrap (l : List Int) (a : Int) : sumLoop (wrap32 a) l = wrap32 (a + l.sum) := by
  induction l generalizing a with
  | nil => simp [sumLoop]
  | cons n t ih =>
      rw [sumLoop, wrap32_add_left, ih, List.sum_cons]
      ring_nf

lemma sum_eq_wrap (l : List Int) : sum l = wrap32 l.sum := by
  have h0 : (0 : Int) = wrap32 0 := by decide
  rw [sum, h0, sumLoop_wrap, zero_add]

/-- The trailing part of `format_vector`'s output contributed by the
elements after the first: each is preceded by the separator. -/
def restJoin : List String → String
  | [] => ""
  | s :: rest => ", " ++ "\"" ++ s ++ "\"" ++ restJoin rest

lemma format_vector_loop_false (l : List String) (acc : String) :
    format_vector_loop acc false l = acc ++ restJoin l := by
  induction l generalizing acc with
  | nil => simp [format_vector_loop, restJoin]
  | cons s rest ih =>
      simp only [format_vector_loop, if_neg Bool.false_ne_true, restJoin, ih,
        String.append_assoc]

lemma joinSep_quote (s : String) (rest : List String) :
    joinSep ", " ((s :: rest).map quoteLabel) = "\"" ++ s ++ "\"" ++ restJoin rest := by
  induction rest generalizing s with
  | nil =>
      have h1 : joinSep ", " ([s].map quoteLabel) = quoteLabel s := rfl
      rw [h1, quoteLabel, restJoin, String.append_empty]
  | cons t rest ih =>
      have hstep : joinSep ", " ((s :: t :: rest).map quoteLabel)
          = quoteLabel s ++ ", " ++ joinSep ", " ((t :: rest).map quoteLabel) := rfl
      rw [hstep, ih t, restJoin]
      simp only [quoteLabel, String.append_assoc]

lemma format_vector_eq (l : List String) : format_vector l = renderSpec l := by
  cases l with
  | nil => rfl
  | cons s rest =>
      rw [format_vector, format_vector_loop, if_pos rfl, format_vector_loop_false,
        renderSpec, joinSep_quote]
      simp only [String.append_assoc]

-- Claims --------------------------------------------------------------------

/-- Claim C1: the entry point, run on the fixed demonstration sequence
`[1, 2, 3, 4, 5, 6]`, writes exactly these four lines to standard output, in
this order and format. -/
theorem main_output_exact :
    main_run.1 =
      ["Original numbers: \x7b\"1\", \"2\", \"3\", \"4\", \"5\", \"6\"\x7d",
       "Even numbers: \x7b\"2\", \"4\", \"6\"\x7d",
       "Squared even numbers: \x7b\"4\", \"16\", \"36\"\x7d",
       "Sum of squared even numbers: 56"] := by decide

/-- Claim C2: for every integer sequence `S` (including the empty one),
`get_even_numbers` retains exactly the elements `n` with `n mod 2 = 0`
(zero and negative evens included), and its result is a sublist of `S`,
hence a subsequence preserving the original relative order. -/
theorem get_even_numbers_spec (S : List Int) :
    get_even_numbers S = S.filter (fun n => n % 2 == 0) ∧
    (get_even_numbers S).Sublist S := by
  constructor
  · unfold get_even_numbers
    exact List.filter_congr fun x _ => cppIsEven_eq_emod x
  · exact List.filter_sublist S

/-- Claim C3: `square_numbers S` has the same length as `S`, and at every
position the element is the square of the corresponding element of `S`,
computed in the program's 32-bit `int` arithmetic. -/
theorem square_numbers_spec (S : List Int) :
    (square_numbers S).length = S.length ∧
    ∀ i : Nat, (square_numbers S)[i]? = Option.map (fun n => wrap32 (n * n)) S[i]? := by
  refine ⟨by simp [square_numbers], fun i => ?_⟩
  simp [square_numbers, List.getElem?_map]

/-- Claim C4: `sum S` is a left-to-right single-pass accumulation (a left
fold) starting at 0 over the elements of `S`, and the sum of the empty
sequence is 0. -/
theorem sum_is_left_fold (S : List Int) :
    sum S = S.foldl (fun acc n => wrap32 (acc + n)) 0 ∧ sum ([] : List Int) = 0 :=
  ⟨sumLoop_eq_foldl S 0, rfl⟩

/-- Claim C5, counterexample: additivity over concatenation fails literally,
because the accumulator wraps at 32 bits. At `A = [2147483647]`, `B = [1]`
the program computes `sum (A ++ B) = -2147483648`, while
`sum A + sum B = 2147483648`. -/
theorem sum_concat_cex :
    ¬ (sum ([2147483647] ++ [1]) = sum [2147483647] + sum [1]) := by decide

/-- Claim C5, amended: summation is additive over concatenation up to the
program's 32-bit wrapping addition: `sum (A ++ B)` equals
`sum A + sum B` wrapped into the signed 32-bit range, and `sum [] = 0`.
(Exact additivity holds whenever no accumulation overflows.) -/
theorem sum_concat_wrap (A B : List Int) :
    sum (A ++ B) = wrap32 (sum A + sum B) ∧ sum ([] : List Int) = 0 := by
  refine ⟨?_, rfl⟩
  rw [sum_eq_wrap, sum_eq_wrap, sum_eq_wrap, List.sum_append, wrap32_add_wrap]

/-- Claim C6: `format_vector` produces an opening brace, each label wrapped
in double quotes, labels joined by comma-space in input order, and a closing
brace; the empty list yields the two-character brace pair, and the labels of
`[1, 2]` render as the literal in the claim. -/
theorem format_vector_spec (labels : List String) :
    format_vector labels = renderSpec labels ∧
    format_vector [] = "\x7b\x7d" ∧
    format_vector (([1, 2] : List Int).map to_string) = "\x7b\"1\", \"2\"\x7d" :=
  ⟨format_vector_eq labels, by decide, by decide⟩

/-- Claim C7: `get_even_numbers` is idempotent. -/
theorem get_even_numbers_idem (S : List Int) :
    get_even_numbers (get_even_numbers S) = get_even_numbers S := by
  unfold get_even_numbers
  rw [List.filter_filter]
  exact List.filter_congr fun x _ => Bool.and_self (cppIsEven x)

/-- Claim C8: the program completes with exit status 0 — the model of `main`
returns 0 and has no error channel — and every pipeline operation is a total
function accepting the empty sequence, on which it yields the empty or zero
output. -/
theorem no_failure_path :
    main_run.2 = 0 ∧ get_even_numbers [] = [] ∧ square_numbers [] = [] ∧
    sum [] = 0 ∧ format_vector [] = "\x7b\x7d" := by decide

/-- Claim C9: when the mathematical square of `n` exceeds the signed 32-bit
range, `square_numbers` raises no error (it is a total function) and stores
`n * n` reduced modulo `2 ^ 32` and reinterpreted as a signed 32-bit
value. -/
theorem square_overflow_wraps (n : Int) (_h : 2 ^ 31 - 1 < n * n) :
    square_numbers [n] = [toSigned32 (n * n)] := by
  rw [square_numbers, List.map_cons, List.map_nil, wrap32_eq_toSigned32]

/-- Witness for C9 at `n = 65536`: the square `2 ^ 32` overflows and the
stored value is its wrap, namely 0. -/
theorem square_overflow_wraps_witness :
    ((2 : Int) ^ 31 - 1 < 65536 * 65536 ∧
      square_numbers [65536] = [toSigned32 (65536 * 65536)]) ∧
    toSigned32 (65536 * 65536) = 0 :=
  ⟨⟨by decide, square_overflow_wraps 65536 (by decide)⟩, by decide⟩

/-- Claim C10: filtering evens commutes with squaring, because squaring
preserves parity even under 32-bit wraparound. -/
theorem filter_even_commutes_square (S : List Int) :
    get_even_numbers (square_numbers S) = square_numbers (get_even_numbers S) := by
  unfold get_even_numbers square_numbers
  rw [List.filter_map]
  exact congrArg _ (List.filter_congr fun x _ => cppIsEven_wrap_square x)
